import Mathlib

/-!
Shallow embedding of the nes_rust emulator core (src/ppu.rs, src/bus.rs,
src/cpu.rs, src/joypad.rs) and proofs about the specified behaviour.

Machine integers are modelled as `Nat` with explicit `% 2^w` (or the source's
own masks) where wrap-around matters; Rust panics become `Option.none`;
fixed-size byte arrays become functions `Nat → Nat` updated pointwise; `Vec<u8>`
becomes `List Nat` indexed with `List.get?` (out-of-bounds indexing panics in
Rust, hence `none`).
-/

namespace Nes

/-- Pointwise update of an array modelled as a function. -/
def updateFn (f : Nat → Nat) (i v : Nat) : Nat → Nat :=
  fun j => if j = i then v else f j

/-- Embeds `cartridge.rs`: `enum Mirroring`. -/
inductive Mirroring where
  | Vertical
  | Horizontal
  | FourScreen
deriving DecidableEq

/-! ### PPU registers (`ppu.rs`) -/

/-- Embeds `ppu.rs`: `struct PpuAddress { address: u16, hi_next: bool }`. -/
structure PpuAddress where
  address : Nat
  hi_next : Bool
deriving DecidableEq

/-- Embeds `PpuAddress::new`. -/
def PpuAddress.new : PpuAddress :=
  { address := 0x0000, hi_next := true }

/-- Embeds `PpuAddress::set`. -/
def PpuAddress.set (pa : PpuAddress) (address : Nat) : PpuAddress :=
  { pa with address := address &&& 0x3fff }

/-- Embeds `PpuAddress::update`: writes data to high or low byte of PPUADDR register.
`data` is a `u8`, so `(data as u16) << 8` never wraps. -/
def PpuAddress.update (pa : PpuAddress) (data : Nat) : PpuAddress :=
  let a :=
    if pa.hi_next then
      (pa.address &&& 0x00ff) ||| ((data % 256) <<< 8)
    else
      (pa.address &&& 0xff00) ||| (data % 256)
  { address := a &&& 0x3fff, hi_next := !pa.hi_next }

/-- Embeds `PpuAddress::increment`: `wrapping_add` on `u16`, then mask to 14 bits. -/
def PpuAddress.increment (pa : PpuAddress) (inc : Nat) : PpuAddress :=
  { pa with address := ((pa.address + inc) % 65536) &&& 0x3fff }

/-- Embeds `PpuAddress::reset_latch`. -/
def PpuAddress.reset_latch (pa : PpuAddress) : PpuAddress :=
  { pa with hi_next := true }

/-- Embeds `ppu.rs`: `struct PpuControl { flags: u8 }`. -/
structure PpuControl where
  flags : Nat
deriving DecidableEq

/-- Embeds `PpuControl::new`. -/
def PpuControl.new : PpuControl := { flags := 0x00 }

/-- Embeds `PpuControl::get_address_increment`. -/
def PpuControl.get_address_increment (c : PpuControl) : Nat :=
  if c.flags &&& 0x04 = 0 then 1 else 32

/-- Embeds `PpuControl::update`. -/
def PpuControl.update (c : PpuControl) (data : Nat) : PpuControl :=
  { c with flags := data % 256 }

/-- Embeds `ppu.rs`: `struct PpuStatus { flags: u8 }`. -/
structure PpuStatus where
  flags : Nat
deriving DecidableEq

/-- Embeds `PpuStatus::new`. -/
def PpuStatus.new : PpuStatus := { flags := 0x00 }

/-- Embeds `PpuStatus::set_vertical_blank`; `!0x80 : u8 = 0x7f`. -/
def PpuStatus.set_vertical_blank (s : PpuStatus) (condition : Bool) : PpuStatus :=
  if condition then
    { s with flags := s.flags ||| 0x80 }
  else
    { s with flags := s.flags &&& 0x7f }

/-- Embeds `ppu.rs`: `struct PpuMask { flags: u8 }`. -/
structure PpuMask where
  flags : Nat
deriving DecidableEq

/-- Embeds `PpuMask::new`. -/
def PpuMask.new : PpuMask := { flags := 0x00 }

/-- Embeds `PpuMask::update`. -/
def PpuMask.update (m : PpuMask) (data : Nat) : PpuMask :=
  { m with flags := data % 256 }

/-- Embeds `ppu.rs`: `struct PpuScroll { x: u8, y: u8, x_next: bool }`. -/
structure PpuScroll where
  x : Nat
  y : Nat
  x_next : Bool
deriving DecidableEq

/-- Embeds `PpuScroll::new`. -/
def PpuScroll.new : PpuScroll := { x := 0, y := 0, x_next := true }

/-- Embeds `PpuScroll::update`. -/
def PpuScroll.update (s : PpuScroll) (data : Nat) : PpuScroll :=
  if s.x_next then
    { s with x := data % 256, x_next := !s.x_next }
  else
    { s with y := data % 256, x_next := !s.x_next }

/-- Embeds `PpuScroll::reset_latch`. -/
def PpuScroll.reset_latch (s : PpuScroll) : PpuScroll :=
  { s with x_next := true }

/-! ### PPU (`ppu.rs`) -/

/-- Embeds `ppu.rs`: `struct PPU`.

The fields `clock` and `nmi` are modelled from the spec: the revision of
`ppu.rs` under src/ has no internal clock, yet `bus.rs` calls `self.ppu.tick`,
`self.ppu.nmi` and `self.ppu.get_nmi`; spec section 4.3 describes that missing
code ("advances internal counter, detects vblank-window transition, raises NMI
edge if Control's NMI-enable is set"). -/
structure PPU where
  chr_rom : List Nat
  palette_table : Nat → Nat
  vram : Nat → Nat
  oam_data : Nat → Nat
  mirroring : Mirroring
  buffer : Nat
  register_control : PpuControl
  register_mask : PpuMask
  register_status : PpuStatus
  oam_address : Nat
  register_scroll : PpuScroll
  register_address : PpuAddress
  clock : Nat
  nmi : Bool

/-- Embeds `PPU::new`. -/
def PPU.new (chr_rom : List Nat) (mirroring : Mirroring) : PPU :=
  { chr_rom := chr_rom
    vram := fun _ => 0
    oam_data := fun _ => 0
    palette_table := fun _ => 0
    mirroring := mirroring
    buffer := 0x00
    register_control := PpuControl.new
    register_mask := PpuMask.new
    register_status := PpuStatus.new
    oam_address := 0x00
    register_scroll := PpuScroll.new
    register_address := PpuAddress.new
    clock := 0
    nmi := false }

/-- Embeds `PPU::write_address`. -/
def PPU.write_address (p : PPU) (data : Nat) : PPU :=
  { p with register_address := p.register_address.update data }

/-- Embeds `PPU::write_control`. -/
def PPU.write_control (p : PPU) (data : Nat) : PPU :=
  { p with register_control := p.register_control.update data }

/-- Embeds `PPU::increment_adr`. -/
def PPU.increment_adr (p : PPU) : PPU :=
  { p with register_address :=
      p.register_address.increment p.register_control.get_address_increment }

/-- Embeds `PPU::vram_mirror_adr`; the `panic!` arms (`FourScreen`, addresses below
`0x2000` after masking) become `none`. -/
def PPU.vram_mirror_adr (p : PPU) (address : Nat) : Option Nat :=
  let mirrored_adr := address &&& 0x2fff
  match p.mirroring with
  | Mirroring.Horizontal =>
      if 0x2000 ≤ mirrored_adr ∧ mirrored_adr ≤ 0x27ff then
        some (mirrored_adr &&& 0x03ff)
      else if 0x2800 ≤ mirrored_adr ∧ mirrored_adr ≤ 0x2fff then
        some ((mirrored_adr &&& 0x03ff) + 0x0400)
      else none
  | Mirroring.Vertical =>
      if (0x2000 ≤ mirrored_adr ∧ mirrored_adr ≤ 0x23ff) ∨
         (0x2800 ≤ mirrored_adr ∧ mirrored_adr ≤ 0x2bff) then
        some (mirrored_adr &&& 0x03ff)
      else if (0x2400 ≤ mirrored_adr ∧ mirrored_adr ≤ 0x27ff) ∨
              (0x2c00 ≤ mirrored_adr ∧ mirrored_adr ≤ 0x2fff) then
        some ((mirrored_adr &&& 0x03ff) + 0x0400)
      else none
  | Mirroring.FourScreen => none

/-- Embeds `PPU::read_data`. The address register is incremented first, then the old
address is dispatched; the `panic!` arms and out-of-bounds indexing become
`none`.  `palette_table` is a 32-byte array, so indices ≥ 32 panic. -/
def PPU.read_data (p : PPU) : Option (Nat × PPU) :=
  let adr := p.register_address.address
  let p1 := p.increment_adr
  if adr ≤ 0x1fff then
    (p1.chr_rom.get? adr).map fun v => (p1.buffer, { p1 with buffer := v })
  else if adr ≤ 0x2fff then
    (p1.vram_mirror_adr adr).map fun t => (p1.buffer, { p1 with buffer := p1.vram t })
  else if adr ≤ 0x3eff then
    none
  else if adr ≤ 0x3fff then
    if adr - 0x3f00 < 32 then some (p1.palette_table (adr - 0x3f00), p1) else none
  else none

/-- Embeds `PPU::write_data`; the arms for `0x0000..=0x1fff`, `0x3000..=0x3eff` and
everything else `panic!`. Note: unlike `read_data`, this function does NOT
increment the address register. -/
def PPU.write_data (p : PPU) (data : Nat) : Option PPU :=
  let adr := p.register_address.address
  if adr ≤ 0x1fff then none
  else if adr ≤ 0x2fff then
    (p.vram_mirror_adr adr).map fun t => { p with vram := updateFn p.vram t data }
  else none

/-- Embeds `PPU::read_status`. -/
def PPU.read_status (p : PPU) : Nat × PPU :=
  let data := p.register_status.flags
  (data,
    { p with
      register_status := p.register_status.set_vertical_blank false
      register_address := p.register_address.reset_latch
      register_scroll := p.register_scroll.reset_latch })

/-- Embeds `PPU::write_oam_address`. -/
def PPU.write_oam_address (p : PPU) (data : Nat) : PPU :=
  { p with oam_address := data % 256 }

/-- Embeds `PPU::read_oam_data`. -/
def PPU.read_oam_data (p : PPU) : Nat :=
  p.oam_data p.oam_address

/-- Embeds `PPU::write_oam_data`. -/
def PPU.write_oam_data (p : PPU) (data : Nat) : PPU :=
  { p with
    oam_data := updateFn p.oam_data p.oam_address data
    oam_address := (p.oam_address + 1) % 256 }

/-- Embeds `PPU::write_oam_dma`: copies 256 bytes into OAM at the cursor, wrapping. -/
def PPU.write_oam_dma (p : PPU) (data : List Nat) : PPU :=
  data.foldl
    (fun q v =>
      { q with
        oam_data := updateFn q.oam_data q.oam_address v
        oam_address := (q.oam_address + 1) % 256 })
    p

/-- Embeds `PPU::write_mask`. -/
def PPU.write_mask (p : PPU) (data : Nat) : PPU :=
  { p with register_mask := p.register_mask.update data }

/-- Embeds `PPU::write_scroll`. -/
def PPU.write_scroll (p : PPU) (data : Nat) : PPU :=
  { p with register_scroll := p.register_scroll.update data }

/-- Modelled from the spec: the vblank-entry point of the PPU clock. The code
holding the PPU clock is not under src/ and the spec gives no concrete cycle
count, so it is kept as an opaque-but-concrete constant here. -/
def vblankEntry : Nat := 82181

/-- Modelled from the spec: `PPU::tick` is called by `bus.rs` but absent from
the `ppu.rs` revision under src/. Spec section 4.3: "advances internal counter,
detects vblank-window transition, raises NMI edge if Control's NMI-enable is
set". NMI-enable is Control bit 7. -/
def PPU.tick (p : PPU) (cycles : Nat) : PPU :=
  let c := p.clock + cycles
  if p.register_control.flags &&& 0x80 ≠ 0 then
    if p.clock < vblankEntry ∧ vblankEntry ≤ c then
      { p with clock := c, nmi := true,
               register_status := p.register_status.set_vertical_blank true }
    else { p with clock := c }
  else { p with clock := c }

/-- Modelled from the spec: `PPU::get_nmi`, called by `bus.rs` but absent from
the `ppu.rs` revision under src/. Spec section 4.2: "returns and clears the
edge (fires exactly once per vblank entry)". -/
def PPU.get_nmi (p : PPU) : Bool × PPU :=
  (p.nmi, { p with nmi := false })

/-! ### Joypad (`joypad.rs`) -/

/-- Embeds `joypad.rs`: `struct Joypad`. -/
structure Joypad where
  strobe : Bool
  button_index : Nat
  button_flags : Nat
deriving DecidableEq

/-- Embeds `Joypad::new`. -/
def Joypad.new : Joypad :=
  { strobe := false, button_index := 0, button_flags := 0 }

/-- Embeds `Joypad::write`. -/
def Joypad.write (j : Joypad) (data : Nat) : Joypad :=
  let j1 := { j with strobe := data &&& 0x01 != 0 }
  if j1.strobe then { j1 with button_index := 0 } else j1

/-- Embeds `Joypad::read`. -/
def Joypad.read (j : Joypad) : Nat × Joypad :=
  if j.button_index > 7 then (1, j)
  else
    let response := (j.button_flags &&& (1 <<< j.button_index)) >>> j.button_index
    if !j.strobe && j.button_index ≤ 7 then
      (response, { j with button_index := j.button_index + 1 })
    else (response, j)

/-- Embeds `Joypad::set_button_pressed_status`; `!button : u8 = 0xff ^ button`. -/
def Joypad.set_button_pressed_status (j : Joypad) (button : Nat) (pressed : Bool) : Joypad :=
  if pressed then { j with button_flags := j.button_flags ||| button }
  else { j with button_flags := j.button_flags &&& (0xff ^^^ button) }

/-! ### Bus (`bus.rs`) -/

/-- Embeds `bus.rs`: `struct Bus`. The `callback` field is dropped: it is a
`FnMut(&PPU)` that only reads PPU state, so it cannot affect the Bus. -/
structure Bus where
  cpu_ram : Nat → Nat
  prg_rom : List Nat
  ppu : PPU

/-- Embeds `Bus::tick`: advances the PPU clock by 3 cycles per CPU cycle. The
vblank-edge callback receives `&PPU` and cannot change the Bus state. -/
def Bus.tick (b : Bus) (cycles : Nat) : Bus :=
  { b with ppu := b.ppu.tick (3 * cycles) }

/-- Embeds `Bus::get_nmi` (forwards to the spec-modelled `PPU::get_nmi`). -/
def Bus.get_nmi (b : Bus) : Bool × Bus :=
  let r := b.ppu.get_nmi
  (r.1, { b with ppu := r.2 })

/-- Embeds `impl Mem for Bus`: `read`. The `panic!` arms (reads of write-only PPU
registers) and out-of-bounds `prg_rom` indexing become `none`. Reads of the
Status/Data PPU registers mutate the PPU, hence the returned `Bus`. -/
def Bus.read (b : Bus) (adr : Nat) : Option (Nat × Bus) :=
  if adr ≤ 0x1fff then
    some (b.cpu_ram (adr &&& 0x07ff), b)
  else if adr ≤ 0x3fff then
    if adr &&& 0x2007 = 0x2002 then
      let r := b.ppu.read_status
      some (r.1, { b with ppu := r.2 })
    else if adr &&& 0x2007 = 0x2004 then
      some (b.ppu.read_oam_data, b)
    else if adr &&& 0x2007 = 0x2007 then
      (b.ppu.read_data).map fun r => (r.1, { b with ppu := r.2 })
    else none
  else if adr ≤ 0x4015 then
    -- todo arm in the source: APU, return 0 for now
    some (0, b)
  else if adr = 0x4016 then
    -- todo arm in the source: joy pad 1 read, return 0 for now
    some (0, b)
  else if adr = 0x4017 then
    -- todo arm in the source: joy pad 2 read, return 0 for now
    some (0, b)
  else if 0x8000 ≤ adr ∧ adr ≤ 0xffff then
    (if b.prg_rom.length = 0x4000 then b.prg_rom.get? (adr &&& 0x3fff)
     else b.prg_rom.get? (adr - 0x8000)).map fun v => (v, b)
  else
    -- Ignoring mem access (prints and returns 0)
    some (0, b)

/-- Reads a list of addresses through the Bus in order, threading the Bus
state (used by the OAM DMA loop in `Bus::write`). -/
def Bus.readList (b : Bus) : List Nat → Option (List Nat × Bus)
  | [] => some ([], b)
  | i :: rest =>
      (b.read i).bind fun r =>
        (r.2.readList rest).map fun s => (r.1 :: s.1, s.2)

/-- Embeds `impl Mem for Bus`: `write`. The `panic!` arms (PPU Status register,
cartridge ROM space, the `unreachable!`) become `none`. -/
def Bus.write (b : Bus) (adr : Nat) (data : Nat) : Option Bus :=
  if adr ≤ 0x1fff then
    some { b with cpu_ram := updateFn b.cpu_ram (adr &&& 0x07ff) data }
  else if adr ≤ 0x3fff then
    if adr &&& 0x2007 = 0x2000 then some { b with ppu := b.ppu.write_control data }
    else if adr &&& 0x2007 = 0x2001 then some { b with ppu := b.ppu.write_mask data }
    else if adr &&& 0x2007 = 0x2002 then none
    else if adr &&& 0x2007 = 0x2003 then some { b with ppu := b.ppu.write_oam_address data }
    else if adr &&& 0x2007 = 0x2004 then some { b with ppu := b.ppu.write_oam_data data }
    else if adr &&& 0x2007 = 0x2005 then some { b with ppu := b.ppu.write_scroll data }
    else if adr &&& 0x2007 = 0x2006 then some { b with ppu := b.ppu.write_address data }
    else if adr &&& 0x2007 = 0x2007 then
      (b.ppu.write_data data).map fun p => { b with ppu := p }
    else none
  else if adr ≤ 0x4013 then
    some b
  else if adr = 0x4015 then
    some b
  else if adr = 0x4014 then
    let hi := (data % 256) <<< 8
    (b.readList ((List.range 256).map fun i => hi + i)).map fun r =>
      { r.2 with ppu := r.2.ppu.write_oam_dma r.1 }
  else if adr = 0x4016 then
    -- todo arm in the source: ignore joy pad 1
    some b
  else if adr = 0x4017 then
    -- todo arm in the source: ignore joy pad 2
    some b
  else if 0x8000 ≤ adr ∧ adr ≤ 0xffff then
    none
  else
    some b

/-! ### CPU (`cpu.rs`) -/

/-- Status register bits (`cpu.rs` constants). -/
def FLG_C : Nat := 0x01
def FLG_Z : Nat := 0x02
def FLG_I : Nat := 0x04
def FLG_D : Nat := 0x08
def FLG_B : Nat := 0x10
def FLG_U : Nat := 0x20
def FLG_V : Nat := 0x40
def FLG_N : Nat := 0x80

/-- Embeds `cpu.rs`: `enum AddressingMode`. -/
inductive AddressingMode where
  | Immediate
  | ZeroPage
  | ZeroPageX
  | ZeroPageY
  | Absolute
  | AbsoluteX
  | AbsoluteY
  | Indirect
  | IndirectX
  | IndirectY
  | Implied
deriving DecidableEq

/-- Embeds `cpu.rs`: `struct CPU`. -/
structure CPU where
  a : Nat
  x : Nat
  y : Nat
  p : Nat
  s : Nat
  pc : Nat
  bus : Bus

/-- Embeds `impl Mem for CPU`: `read` forwards to the Bus. -/
def CPU.read (c : CPU) (adr : Nat) : Option (Nat × CPU) :=
  (c.bus.read adr).map fun r => (r.1, { c with bus := r.2 })

/-- Embeds `impl Mem for CPU`: `write` forwards to the Bus. -/
def CPU.write (c : CPU) (adr : Nat) (v : Nat) : Option CPU :=
  (c.bus.write adr v).map fun b => { c with bus := b }

/-- Embeds `Mem::read_address`: little-endian 16-bit read (`adr + 1` wraps on u16). -/
def CPU.read_address (c : CPU) (adr : Nat) : Option (Nat × CPU) := do
  let lo ← c.read adr
  let hi ← lo.2.read ((adr + 1) % 65536)
  some ((hi.1 <<< 8) ||| lo.1, hi.2)

/-- The `i8` reinterpretation of a byte (`as i8`). -/
def i8val (v : Nat) : Int :=
  if v % 256 < 128 then (v % 256 : Int) else (v % 256 : Int) - 256

/-- The `i16` reinterpretation of a 16-bit word (`as i16`). -/
def i16val (v : Nat) : Int :=
  if v % 65536 < 32768 then (v % 65536 : Int) else (v % 65536 : Int) - 65536

/-- The `as u16` conversion of a (release-mode, wrapping) `i16` computation. -/
def u16ofInt (x : Int) : Nat :=
  (x % 65536).toNat

/-- Embeds `CPU::get_effective_address`. `Implied` panics. -/
def CPU.get_effective_address (c : CPU) (mode : AddressingMode) (adr : Nat) :
    Option (Nat × CPU) :=
  match mode with
  | AddressingMode.Immediate => some (adr, c)
  | AddressingMode.ZeroPage => c.read adr
  | AddressingMode.Absolute => c.read_address adr
  | AddressingMode.ZeroPageX =>
      (c.read adr).map fun r => ((r.1 + r.2.x) % 256, r.2)
  | AddressingMode.ZeroPageY =>
      (c.read adr).map fun r => ((r.1 + r.2.y) % 256, r.2)
  | AddressingMode.AbsoluteX =>
      (c.read_address adr).map fun r => ((r.1 + r.2.x) % 65536, r.2)
  | AddressingMode.AbsoluteY =>
      (c.read_address adr).map fun r => ((r.1 + r.2.y) % 65536, r.2)
  | AddressingMode.Indirect => do
      let ptr ← c.read_address adr
      -- An original 6502 does not correctly fetch the target address
      -- if the indirect vector falls on a page boundary
      let lo ← ptr.2.read ptr.1
      let hi ←
        if ptr.1 &&& 0xff = 0xff then
          lo.2.read (ptr.1 &&& 0xff00)
        else
          lo.2.read ((ptr.1 + 1) % 65536)
      some ((hi.1 <<< 8) ||| lo.1, hi.2)
  | AddressingMode.IndirectX => do
      let base ← c.read adr
      let ptr := (base.1 + base.2.x) % 256
      let lo ← base.2.read ptr
      let hi ← lo.2.read ((ptr + 1) % 256)
      some ((hi.1 <<< 8) ||| lo.1, hi.2)
  | AddressingMode.IndirectY => do
      let base ← c.read adr
      let lo ← base.2.read (base.1 % 256)
      let hi ← lo.2.read ((base.1 + 1) % 256)
      some (((hi.1 <<< 8) ||| lo.1 + hi.2.y) % 65536, hi.2)
  | AddressingMode.Implied => none

/-- Embeds `CPU::get_operand_address`. -/
def CPU.get_operand_address (c : CPU) (mode : AddressingMode) : Option (Nat × CPU) :=
  c.get_effective_address mode c.pc

/-- Embeds `CPU::update_flag`; `!flag : u8 = 0xff ^ flag`. -/
def CPU.update_flag (c : CPU) (flag : Nat) (condition : Bool) : CPU :=
  if condition then { c with p := c.p ||| flag }
  else { c with p := c.p &&& (0xff ^^^ flag) }

/-- Embeds `CPU::update_zn_flags`. -/
def CPU.update_zn_flags (c : CPU) (result : Nat) : CPU :=
  (c.update_flag FLG_Z (result = 0)).update_flag FLG_N (result &&& FLG_N ≠ 0)

/-- Embeds `CPU::stack_push`: write through page `0x0100`, then `s.wrapping_sub(1)`. -/
def CPU.stack_push (c : CPU) (value : Nat) : Option CPU :=
  (c.write (0x0100 ||| c.s) value).map fun c1 => { c1 with s := (c1.s + 255) % 256 }

/-- Embeds `CPU::stack_pop`: `s.wrapping_add(1)`, then read through page `0x0100`. -/
def CPU.stack_pop (c : CPU) : Option (Nat × CPU) :=
  let c1 := { c with s := (c.s + 1) % 256 }
  c1.read (0x0100 ||| c1.s)

/-- Embeds `CPU::nmi` (the interrupt-entry routine in cpu.rs). -/
def CPU.nmi (c : CPU) : Option CPU := do
  let c1 ← c.stack_push ((c.pc >>> 8) % 256)
  let c2 ← c1.stack_push (c1.pc &&& 0x00ff)
  let c3 ← c2.stack_push ((c2.p &&& (0xff ^^^ FLG_B)) ||| FLG_U)
  let c4 := c3.update_flag FLG_I true
  let v ← c4.read_address 0xfffa
  some { v.2 with pc := v.1 }

/-- Embeds `CPU::adc`. Two chained 8-bit `overflowing_add`s; note the overflow test
uses the old accumulator, which is only replaced at the end. -/
def CPU.adc (c : CPU) (mode : AddressingMode) : Option CPU := do
  let r ← c.get_operand_address mode
  let v ← r.2.read r.1
  let c0 := v.2
  let val := v.1
  let tmp := (c0.a + val) % 256
  let c1 := decide (256 ≤ c0.a + val)
  let res := (tmp + (c0.p &&& 0x01)) % 256
  let c2 := decide (256 ≤ tmp + (c0.p &&& 0x01))
  let c3 := c0.update_zn_flags res
  let c4 := c3.update_flag FLG_C (c1 || c2)
  let c5 := c4.update_flag FLG_V (decide ((c4.a ^^^ res) &&& (val ^^^ res) &&& FLG_N ≠ 0))
  some { c5 with a := res }

/-- Embeds `CPU::sbc`: identical to `adc` but on the bitwise complement `!val`. -/
def CPU.sbc (c : CPU) (mode : AddressingMode) : Option CPU := do
  let r ← c.get_operand_address mode
  let v ← r.2.read r.1
  let c0 := v.2
  let val := 0xff ^^^ (v.1 % 256)
  let tmp := (c0.a + val) % 256
  let c1 := decide (256 ≤ c0.a + val)
  let res := (tmp + (c0.p &&& 0x01)) % 256
  let c2 := decide (256 ≤ tmp + (c0.p &&& 0x01))
  let c3 := c0.update_zn_flags res
  let c4 := c3.update_flag FLG_C (c1 || c2)
  let c5 := c4.update_flag FLG_V (decide ((c4.a ^^^ res) &&& (val ^^^ res) &&& FLG_N ≠ 0))
  some { c5 with a := res }

/-- Embeds `CPU::lda`. -/
def CPU.lda (c : CPU) (mode : AddressingMode) : Option CPU := do
  let r ← c.get_operand_address mode
  let v ← r.2.read r.1
  let c1 := { v.2 with a := v.1 }
  some (c1.update_zn_flags c1.a)

/-- Embeds `CPU::bne`: branch if the zero flag is clear; the offset is `as i8`, the
program counter arithmetic is `i16` (wrapping) cast back `as u16`. -/
def CPU.bne (c : CPU) : Option CPU :=
  if c.p &&& FLG_Z = 0 then
    (c.read c.pc).map fun r =>
      { r.2 with pc := u16ofInt (i16val r.2.pc + i8val r.1 + 1) }
  else some c

/-- Embeds `CPU::nop`. -/
def CPU.nop (c : CPU) : CPU := c

/-- Embeds `CPU::brk`. -/
def CPU.brk (c : CPU) : Option CPU := do
  let c1 ← c.stack_push ((c.pc >>> 8) % 256)
  let c2 ← c1.stack_push (c1.pc &&& 0xff)
  let c3 ← c2.stack_push (c2.p ||| FLG_U ||| FLG_B)
  let c4 := c3.update_flag FLG_I true
  let v ← c4.read_address 0xfffe
  some { v.2 with pc := v.1 }

/-! ### Run loop (`cpu.rs`: `run_with_callback`) -/

/-- One entry of the opcode table.

Modelled from the spec: the opcode table (`crate::opcodes`, referenced from
cpu.rs) is not under src/. Spec section 3: "static map from opcode byte →
{mnemonic, mode, length, cycles}; unmapped byte is fatal"; lengths are 1-3. -/
structure OpCode where
  mode : AddressingMode
  len : Nat
  cycles : Nat
deriving DecidableEq

/-- Modelled from the spec: the entries of the opcode table for the opcodes
exercised by this development (lengths and cycle costs of the 6502 ISA the
spec names). Branch opcodes take no addressing mode in the dispatch, so their
`mode` field is unused. Unmapped bytes are fatal (`none`). -/
def opcodes_map (code : Nat) : Option OpCode :=
  if code = 0x00 then some ⟨AddressingMode.Implied, 1, 7⟩     -- BRK
  else if code = 0x69 then some ⟨AddressingMode.Immediate, 2, 2⟩ -- ADC #
  else if code = 0xe9 then some ⟨AddressingMode.Immediate, 2, 2⟩ -- SBC #
  else if code = 0xa9 then some ⟨AddressingMode.Immediate, 2, 2⟩ -- LDA #
  else if code = 0xd0 then some ⟨AddressingMode.Implied, 2, 2⟩   -- BNE rel
  else if code = 0xea then some ⟨AddressingMode.Implied, 1, 2⟩   -- NOP
  else none

/-- The dispatch `match code { ... }` of `run_with_callback`, restricted to
the opcodes of `opcodes_map` (the claims only exercise these). -/
def executeInstr (code : Nat) (mode : AddressingMode) (c : CPU) : Option CPU :=
  if code = 0x00 then c.brk
  else if code = 0x69 then c.adc mode
  else if code = 0xe9 then c.sbc mode
  else if code = 0xa9 then c.lda mode
  else if code = 0xd0 then c.bne
  else if code = 0xea then some c.nop
  else none

/-- The loop state of `run_with_callback`: the CPU plus the remaining
`run_time : u64` budget. -/
structure RunState where
  cpu : CPU
  runTime : Nat

/-- The `while !timeout || run_time > 0` guard. -/
def runGuard (timeout : Bool) (s : RunState) : Bool :=
  !timeout || decide (0 < s.runTime)

/-- One iteration of the body of `run_with_callback` (the step-observer
callback only observes, so it is dropped): NMI check, fetch, opcode lookup,
`run_time.wrapping_sub(opcode.len)`, execute, `bus.tick(cycles)`, and the
program-counter adjustment when the instruction did not redirect it. -/
def runStep (s : RunState) : Option RunState := do
  let cpu := s.cpu
  let g := cpu.bus.get_nmi
  let cpu ←
    if g.1 then ({ cpu with bus := g.2 } : CPU).nmi
    else some { cpu with bus := g.2 }
  let f ← cpu.read cpu.pc
  let code := f.1
  let cpu := { f.2 with pc := (f.2.pc + 1) % 65536 }
  let pcBefore := cpu.pc
  let op ← opcodes_map code
  let rt := (s.runTime + (2 ^ 64 - op.len)) % 2 ^ 64
  let cpu ← executeInstr code op.mode cpu
  let cpu : CPU := { cpu with bus := cpu.bus.tick op.cycles }
  let cpu : CPU :=
    if pcBefore = cpu.pc then { cpu with pc := (cpu.pc + (op.len - 1)) % 65536 }
    else cpu
  some ⟨cpu, rt⟩

/-- Iterates the run loop up to `n` times, checking the guard before each
iteration as the `while` loop does; once the guard fails the state is fixed. -/
def runTrace (timeout : Bool) : Nat → RunState → Option RunState
  | 0, s => some s
  | n + 1, s =>
      if runGuard timeout s then (runStep s).bind (runTrace timeout n)
      else some s

/-- Whether `run` has stopped within `n` iterations: either an instruction panicked
(`none`) or the loop guard failed. -/
def runStopped (timeout : Bool) (n : Nat) (s : RunState) : Bool :=
  match runTrace timeout n s with
  | none => true
  | some s1 => !runGuard timeout s1

/-- The proposition that `run` executes only finitely many instructions from `s` before returning
(normally or by panic). -/
def RunReturns (timeout : Bool) (s : RunState) : Prop :=
  ∃ n, runStopped timeout n s = true

/-! ### Operations on the PPU Address register, for the invariant claim -/

/-- The operations `ppu.rs` ever performs on a `PpuAddress`. -/
inductive PpuAddressOp where
  | set (address : Nat)
  | update (data : Nat)
  | increment (inc : Nat)
  | reset_latch
deriving DecidableEq

/-- Applies one operation to a `PpuAddress`. -/
def PpuAddressOp.apply (pa : PpuAddress) : PpuAddressOp → PpuAddress
  | PpuAddressOp.set a => pa.set a
  | PpuAddressOp.update d => pa.update d
  | PpuAddressOp.increment i => pa.increment i
  | PpuAddressOp.reset_latch => pa.reset_latch

/-- Applies a sequence of operations starting from the freshly constructed
register. -/
def PpuAddressOp.applyAll (ops : List PpuAddressOp) : PpuAddress :=
  ops.foldl PpuAddressOp.apply PpuAddress.new

/-! ### Concrete states used as witnesses and counterexamples -/

/-- A PPU whose Address register points at `0x2305` (two Address writes,
exactly as in the repository's own `test_ppu_vram_writes` test). -/
def ppu1ex : PPU :=
  ((PPU.new [] Mirroring.Horizontal).write_address 0x23).write_address 0x05

/-- A minimal concrete Bus. -/
def busEx : Bus :=
  { cpu_ram := fun _ => 0, prg_rom := [], ppu := PPU.new [] Mirroring.Horizontal }

/-- A CPU whose RAM holds the pointer `0x01ff` at address `0`, `0x34` at
`0x01ff`, `0x12` at `0x0100` (start of the pointer's page) and `0x99` at
`0x0200` (start of the next page) — the spec's Indirect-mode example. -/
def cpu4ex : CPU :=
  { a := 0, x := 0, y := 0, p := 0x24, s := 0xfd, pc := 0,
    bus :=
      { cpu_ram := fun i =>
          if i = 0 then 0xff
          else if i = 1 then 0x01
          else if i = 0x01ff then 0x34
          else if i = 0x0100 then 0x12
          else if i = 0x0200 then 0x99
          else 0
        prg_rom := []
        ppu := PPU.new [] Mirroring.Horizontal } }

/-- A CPU about to execute `ADC #0x10` with accumulator `0x05` and carry
clear: the program counter points at RAM holding the immediate operand. -/
def cpu7ex : CPU :=
  { a := 0x05, x := 0, y := 0, p := 0x24, s := 0xfd, pc := 0x10,
    bus :=
      { cpu_ram := fun i => if i = 0x10 then 0x10 else 0
        prg_rom := []
        ppu := PPU.new [] Mirroring.Horizontal } }

/-- A CPU with an empty zeroed RAM, for the stack round-trip witness. -/
def cpu9ex : CPU :=
  { a := 0x11, x := 0x22, y := 0x33, p := 0x24, s := 0xfd, pc := 0x8000,
    bus := busEx }

/-- A joypad with strobe clear, cursor at 3, every button pressed. -/
def jp6ex : Joypad :=
  { strobe := false, button_index := 3, button_flags := 0xff }

/-- The CPU at the start of a `BNE -2` loop resident in work RAM: the two
bytes `0xd0 0xfe` sit at addresses 0 and 1 (RAM-resident code, as a program
can place by ordinary stores), the program counter is 0 and the zero flag is
clear (`p = 0x24`), so the branch is taken and jumps to itself. The PPU clock
is at `c`. -/
def bneCpu (c : Nat) : CPU :=
  { a := 0, x := 0, y := 0, p := 0x24, s := 0xfd, pc := 0,
    bus :=
      { cpu_ram := fun i => if i = 0 then 0xd0 else if i = 1 then 0xfe else 0
        prg_rom := []
        ppu := { PPU.new [] Mirroring.Horizontal with clock := c } } }

/-- The run-loop state starting the `BNE -2` loop with budget 1: the budget
is odd and every `BNE` subtracts its length 2, so it never lands on zero. -/
def bneStart : RunState := ⟨bneCpu 0, 1⟩

/-- The CPU executing an all-`NOP` (`0xea`) program resident in work RAM,
at program counter `pc0`, PPU clock `c`. -/
def nopCpu (pc0 c : Nat) : CPU :=
  { a := 0, x := 0, y := 0, p := 0x24, s := 0xfd, pc := pc0,
    bus :=
      { cpu_ram := fun _ => 0xea
        prg_rom := []
        ppu := { PPU.new [] Mirroring.Horizontal with clock := c } } }

/-- The run-loop state starting the all-`NOP` program at 0 with budget `b`. -/
def nopStart (b : Nat) : RunState := ⟨nopCpu 0 0, b⟩

/-! ## Bit-arithmetic helper lemmas -/

theorem and_mask8 (x : Nat) : x &&& 0xff = x % 0x100 := by
  have h := Nat.and_pow_two_sub_one_eq_mod x 8
  norm_num at h
  exact h

theorem and_mask11 (x : Nat) : x &&& 0x7ff = x % 0x800 := by
  have h := Nat.and_pow_two_sub_one_eq_mod x 11
  norm_num at h
  exact h

theorem and_mask14 (x : Nat) : x &&& 0x3fff = x % 0x4000 := by
  have h := Nat.and_pow_two_sub_one_eq_mod x 14
  norm_num at h
  exact h

/-- The operator `&&&` distributes over a base-`2^k` digit decomposition. -/
theorem and_split (k a b r s : Nat) (hr : r < 2 ^ k) (hs : s < 2 ^ k) :
    (2 ^ k * a + r) &&& (2 ^ k * b + s) = 2 ^ k * (a &&& b) + (r &&& s) := by
  apply Nat.eq_of_testBit_eq
  intro j
  rw [Nat.testBit_land, Nat.testBit_mul_pow_two_add a hr j,
    Nat.testBit_mul_pow_two_add b hs j,
    Nat.testBit_mul_pow_two_add (a &&& b) (Nat.and_lt_two_pow r hs) j]
  by_cases hj : j < k
  · simp [hj, Nat.testBit_land]
  · simp [hj, Nat.testBit_land]

/-- The operator `|||` distributes over a base-`2^k` digit decomposition. -/
theorem or_split (k a b r s : Nat) (hr : r < 2 ^ k) (hs : s < 2 ^ k) :
    (2 ^ k * a + r) ||| (2 ^ k * b + s) = 2 ^ k * (a ||| b) + (r ||| s) := by
  apply Nat.eq_of_testBit_eq
  intro j
  rw [Nat.testBit_lor, Nat.testBit_mul_pow_two_add a hr j,
    Nat.testBit_mul_pow_two_add b hs j,
    Nat.testBit_mul_pow_two_add (a ||| b) (Nat.or_lt_two_pow hr hs) j]
  by_cases hj : j < k
  · simp [hj, Nat.testBit_lor]
  · simp [hj, Nat.testBit_lor]

/-- Recombining a high byte and a low byte. -/
theorem shiftLeft8_or (h l : Nat) (hl : l < 256) : h <<< 8 ||| l = 256 * h + l := by
  have e : h <<< 8 = 2 ^ 8 * h + 0 := by rw [Nat.shiftLeft_eq]; ring
  have e2 : l = 2 ^ 8 * 0 + l := by ring
  calc h <<< 8 ||| l = (2 ^ 8 * h + 0) ||| (2 ^ 8 * 0 + l) := by rw [← e, ← e2]
    _ = 2 ^ 8 * (h ||| 0) + (0 ||| l) :=
        or_split 8 h 0 0 l (by norm_num) (by simpa using hl)
    _ = 256 * h + l := by simp

/-- Addresses in `0x2000..=0x2fff` are fixed by the `&&& 0x2fff` mask. -/
theorem and_2fff_id (adr : Nat) (h1 : 0x2000 ≤ adr) (h2 : adr ≤ 0x2fff) :
    adr &&& 0x2fff = adr := by
  obtain ⟨r, hr, he⟩ : ∃ r, r < 2 ^ 12 ∧ adr = 2 ^ 12 * 2 + r :=
    ⟨adr - 0x2000, by omega, by omega⟩
  subst he
  rw [show (0x2fff : Nat) = 2 ^ 12 * 2 + (2 ^ 12 - 1) by norm_num,
    and_split 12 2 2 r (2 ^ 12 - 1) hr (by norm_num)]
  rw [Nat.and_pow_two_sub_one_eq_mod]
  have h22 : (2 : Nat) &&& 2 = 2 := rfl
  rw [h22, Nat.mod_eq_of_lt hr]

/-- PPU register mirroring: `adr &&& 0x2007` for `adr` in the register
window `0x2000..=0x3fff`. -/
theorem and_2007_eq (adr : Nat) (h1 : 0x2000 ≤ adr) (h2 : adr ≤ 0x3fff) :
    adr &&& 0x2007 = 0x2000 + adr % 8 := by
  obtain ⟨r, hr, he⟩ : ∃ r, r < 2 ^ 13 ∧ adr = 2 ^ 13 * 1 + r :=
    ⟨adr - 0x2000, by omega, by omega⟩
  subst he
  rw [show (0x2007 : Nat) = 2 ^ 13 * 1 + 7 by norm_num,
    and_split 13 1 1 r 7 hr (by norm_num)]
  have h7 : r &&& 7 = r % 8 := by
    have h := Nat.and_pow_two_sub_one_eq_mod r 3
    norm_num at h
    exact h
  have h11 : (1 : Nat) &&& 1 = 1 := rfl
  rw [h7, h11]
  omega

/-- The method `update_flag` only changes the flag's own bit (for bit positions of the
8-bit status register). -/
theorem update_flag_testBit (c : CPU) (f : Nat) (b : Bool) (i : Nat) (hi : i < 8) :
    (c.update_flag f b).p.testBit i =
      if f.testBit i = true then b else c.p.testBit i := by
  unfold CPU.update_flag
  cases b
  · simp only [Bool.false_eq_true, if_false]
    rw [Nat.testBit_land, Nat.testBit_xor]
    have h8 : Nat.testBit 0xff i = true := by
      rw [show (0xff : Nat) = 2 ^ 8 - 1 by norm_num, Nat.testBit_two_pow_sub_one]
      simpa using hi
    rw [h8]
    cases hf : f.testBit i <;> simp [hf]
  · simp only [if_true]
    rw [Nat.testBit_lor]
    cases hf : f.testBit i <;> simp [hf]

/-- The status bits produced by the Z-N-C-V flag-update chain shared by
`adc` and `sbc`. -/
theorem flag_chain (c : CPU) (zb nb cb vb : Bool) :
    ((((c.update_flag FLG_Z zb).update_flag FLG_N nb).update_flag
        FLG_C cb).update_flag FLG_V vb).p.testBit 0 = cb ∧
    ((((c.update_flag FLG_Z zb).update_flag FLG_N nb).update_flag
        FLG_C cb).update_flag FLG_V vb).p.testBit 1 = zb ∧
    ((((c.update_flag FLG_Z zb).update_flag FLG_N nb).update_flag
        FLG_C cb).update_flag FLG_V vb).p.testBit 6 = vb ∧
    ((((c.update_flag FLG_Z zb).update_flag FLG_N nb).update_flag
        FLG_C cb).update_flag FLG_V vb).p.testBit 7 = nb := by
  refine ⟨?_, ?_, ?_, ?_⟩ <;>
  · rw [update_flag_testBit _ _ _ _ (by norm_num),
      update_flag_testBit _ _ _ _ (by norm_num),
      update_flag_testBit _ _ _ _ (by norm_num),
      update_flag_testBit _ _ _ _ (by norm_num)]
    norm_num [FLG_Z, FLG_N, FLG_C, FLG_V,
      show Nat.testBit 0x40 0 = false from by decide,
      show Nat.testBit 0x01 0 = true from by decide,
      show Nat.testBit 0x40 1 = false from by decide,
      show Nat.testBit 0x01 1 = false from by decide,
      show Nat.testBit 0x02 1 = true from by decide,
      show Nat.testBit 0x40 6 = true from by decide,
      show Nat.testBit 0x40 7 = false from by decide,
      show Nat.testBit 0x01 7 = false from by decide,
      show Nat.testBit 0x02 7 = false from by decide,
      show Nat.testBit 0x80 7 = true from by decide,
      show Nat.testBit 0x80 0 = false from by decide,
      show Nat.testBit 0x80 1 = false from by decide,
      show Nat.testBit 0x02 0 = false from by decide,
      show Nat.testBit 0x80 6 = false from by decide,
      show Nat.testBit 0x01 6 = false from by decide,
      show Nat.testBit 0x02 6 = false from by decide]

/-- The negative-flag test `res &&& 0x80 ≠ 0` is bit 7 of the result. -/
theorem and_bit7_ne (r : Nat) : decide (r &&& 0x80 ≠ 0) = r.testBit 7 := by
  have h : r &&& 0x80 = (r.testBit 7).toNat * 0x80 := by
    have h2 := Nat.and_two_pow r 7
    norm_num at h2
    exact h2
  cases hb : r.testBit 7 <;> simp [h, hb]

/-- The joypad's `(flags & (1 << i)) >> i` is the value of bit `i`. -/
theorem joypad_bit_value (f i : Nat) : (f &&& (1 <<< i)) >>> i = f / 2 ^ i % 2 := by
  have h1 : (1 : Nat) <<< i = 2 ^ i := by rw [Nat.shiftLeft_eq, one_mul]
  rw [h1, Nat.and_two_pow, Nat.shiftRight_eq_div_pow,
    Nat.mul_div_cancel _ (Nat.two_pow_pos i), Nat.testBit_to_div_mod]
  by_cases h3 : f / 2 ^ i % 2 = 1
  · simp [h3]
  · have h4 : f / 2 ^ i % 2 = 0 := by omega
    simp [h3, h4]

/-! ## Memory-access helper lemmas -/

/-- A CPU read in the work-RAM window is pure. -/
theorem read_ram (c : CPU) (adr : Nat) (h : adr ≤ 0x1fff) :
    c.read adr = some (c.bus.cpu_ram (adr &&& 0x7ff), c) := by
  unfold CPU.read Bus.read
  rw [if_pos h]
  rfl

/-- A CPU write in the work-RAM window updates one RAM cell. -/
theorem write_ram (c : CPU) (adr v : Nat) (h : adr ≤ 0x1fff) :
    c.write adr v = some
      { c with bus :=
        { c.bus with cpu_ram := updateFn c.bus.cpu_ram (adr &&& 0x7ff) v } } := by
  unfold CPU.write Bus.write
  rw [if_pos h]
  rfl

/-- A CPU read in the cartridge window with a 16KB program ROM indexes the
ROM through the `&&& 0x3fff` mirror. -/
theorem read_rom16 (c : CPU) (adr : Nat) (h1 : 0x8000 ≤ adr) (h2 : adr ≤ 0xffff)
    (hlen : c.bus.prg_rom.length = 0x4000) :
    c.read adr = (c.bus.prg_rom.get? (adr &&& 0x3fff)).map fun v => (v, c) := by
  unfold CPU.read Bus.read
  rw [if_neg (by omega), if_neg (by omega), if_neg (by omega), if_neg (by omega),
    if_neg (by omega), if_pos ⟨h1, h2⟩, if_pos hlen]
  cases c.bus.prg_rom.get? (adr &&& 0x3fff) <;> rfl

/-! ## Claim theorems -/

/-- Auxiliary invariant for C10: any operation sequence keeps the pointer in
the 14-bit range. -/
theorem applyAll_le_aux (ops : List PpuAddressOp) :
    ∀ pa : PpuAddress, pa.address ≤ 0x3fff →
      (ops.foldl PpuAddressOp.apply pa).address ≤ 0x3fff := by
  induction ops with
  | nil => intro pa h; exact h
  | cons op rest ih =>
      intro pa h
      rw [List.foldl_cons]
      apply ih
      cases op with
      | set a => exact Nat.and_le_right
      | update d => exact Nat.and_le_right
      | increment i => exact Nat.and_le_right
      | reset_latch => exact h

/-- C10: the PPU Address register's 14-bit pointer is `0` after construction,
every operation on it (`set`, `update`, `increment`) masks with `0x3fff`, and
hence no sequence of operations can drive it to `0x4000` or above. -/
theorem ppu_address_invariant :
    PpuAddress.new.address = 0 ∧
    (∀ (pa : PpuAddress) (a : Nat), (pa.set a).address ≤ 0x3fff) ∧
    (∀ (pa : PpuAddress) (d : Nat), (pa.update d).address ≤ 0x3fff) ∧
    (∀ (pa : PpuAddress) (i : Nat), (pa.increment i).address ≤ 0x3fff) ∧
    (∀ ops : List PpuAddressOp, (PpuAddressOp.applyAll ops).address ≤ 0x3fff) :=
  ⟨rfl,
   fun _ _ => Nat.and_le_right,
   fun _ _ => Nat.and_le_right,
   fun _ _ => Nat.and_le_right,
   fun ops => applyAll_le_aux ops PpuAddress.new (by norm_num [PpuAddress.new])⟩

/-- C5: reading the PPU Status register returns the current flags byte
(bit 7 being the vblank flag maintained by `set_vertical_blank`), clears the
vblank flag and resets both the Address and the Scroll write-order latches to
high-byte-next, so the next Address write is interpreted as the high byte. -/
theorem read_status_side_effects (p : PPU) :
    (p.read_status).1 = p.register_status.flags ∧
    (p.read_status).2.register_status.flags = p.register_status.flags &&& 0x7f ∧
    Nat.testBit (p.read_status).2.register_status.flags 7 = false ∧
    (p.read_status).2.register_address.hi_next = true ∧
    (p.read_status).2.register_scroll.x_next = true ∧
    (∀ (st : PpuStatus) (c : Bool),
      Nat.testBit (st.set_vertical_blank c).flags 7 = c) ∧
    (∀ d, ((p.read_status).2.write_address d).register_address.address =
      ((p.register_address.address &&& 0x00ff) ||| ((d % 256) <<< 8)) &&& 0x3fff) := by
  refine ⟨rfl, rfl, ?_, rfl, rfl, ?_, fun d => rfl⟩
  · show Nat.testBit (p.register_status.flags &&& 0x7f) 7 = false
    rw [Nat.testBit_land]
    simp [show Nat.testBit 0x7f 7 = false from by decide]
  · intro st c
    cases c
    · show Nat.testBit (st.flags &&& 0x7f) 7 = false
      rw [Nat.testBit_land]
      simp [show Nat.testBit 0x7f 7 = false from by decide]
    · show Nat.testBit (st.flags ||| 0x80) 7 = true
      rw [Nat.testBit_lor]
      simp [show Nat.testBit 0x80 7 = true from by decide]

/-- C2: on the Bus under src/, address `0x4016` is a stub: a read returns the
constant `0` (not a joypad shift-register bit) and leaves the Bus unchanged,
and a write is ignored entirely (no strobe is set or cleared) — the Bus holds
no `Joypad` at all. -/
theorem bus_joypad_port_stubbed (b : Bus) (d : Nat) :
    b.read 0x4016 = some (0, b) ∧ b.write 0x4016 d = some b :=
  ⟨rfl, rfl⟩

/-- C6: the joypad protocol. A write latches bit 0 as the strobe and, when it
sets the strobe, forces the cursor to 0; while the strobe is set a read
reports button A (bit 0) without advancing; while the strobe is clear a read
at cursor `i ≤ 7` returns button bit `i` and advances the cursor; past cursor
7 every read returns 1 and changes nothing (until a re-strobe resets it). -/
theorem joypad_shift_protocol (j : Joypad) (d : Nat) :
    ((j.write d).strobe = (d &&& 1 != 0)) ∧
    (d &&& 1 ≠ 0 → (j.write d).button_index = 0) ∧
    (j.strobe = true → j.button_index = 0 → j.read = (j.button_flags % 2, j)) ∧
    (j.strobe = false → j.button_index ≤ 7 →
      j.read = (j.button_flags / 2 ^ j.button_index % 2,
        { j with button_index := j.button_index + 1 })) ∧
    (7 < j.button_index → j.read = (1, j)) := by
  refine ⟨?_, ?_, ?_, ?_, ?_⟩
  · by_cases hd : d % 2 = 1 <;> simp [Joypad.write, Nat.and_one_is_mod, hd]
  · intro h
    have hd : d % 2 = 1 := by
      rw [Nat.and_one_is_mod] at h
      omega
    simp [Joypad.write, hd]
  · intro hs hi
    unfold Joypad.read
    rw [hi, hs]
    norm_num [joypad_bit_value]
  · intro hs hi
    unfold Joypad.read
    rw [hs]
    rw [if_neg (by omega)]
    simp [hi, joypad_bit_value]
  · intro hi
    unfold Joypad.read
    rw [if_pos (by omega)]

/-- Witness for C6: with strobe clear, cursor 3 and all buttons pressed, a
read returns 1 (button Start) and advances the cursor; a strobing write
resets the cursor. -/
theorem joypad_shift_protocol_check :
    jp6ex.read = (1, { jp6ex with button_index := 4 }) ∧
    (jp6ex.write 1).button_index = 0 := by
  have h := joypad_shift_protocol jp6ex 1
  constructor
  · have h4 := h.2.2.2.1 rfl (by decide)
    simpa using h4
  · exact h.2.1 (by decide)

/-- C8: on the Bus, reading any write-only PPU register (Control, Mask,
OAM Address, Scroll, Address — offsets 0, 1, 3, 5, 6 in the mirrored
`0x2000..=0x3fff` window) is fatal; writing the read-only Status register
(offset 2) or any address in cartridge space `0x8000..=0xffff` is fatal. -/
theorem bus_register_access_fatal (b : Bus) (adr d : Nat) :
    (0x2000 ≤ adr → adr ≤ 0x3fff →
      adr % 8 = 0 ∨ adr % 8 = 1 ∨ adr % 8 = 3 ∨ adr % 8 = 5 ∨ adr % 8 = 6 →
      b.read adr = none) ∧
    (0x2000 ≤ adr → adr ≤ 0x3fff → adr % 8 = 2 → b.write adr d = none) ∧
    (0x8000 ≤ adr → adr ≤ 0xffff → b.write adr d = none) := by
  refine ⟨?_, ?_, ?_⟩
  · intro h1 h2 h3
    have hkey := and_2007_eq adr h1 h2
    unfold Bus.read
    rw [if_neg (by omega), if_pos (by omega), hkey,
      if_neg (by omega), if_neg (by omega), if_neg (by omega)]
  · intro h1 h2 h3
    have hkey := and_2007_eq adr h1 h2
    unfold Bus.write
    rw [if_neg (by omega), if_pos (by omega), hkey,
      if_neg (by omega), if_neg (by omega), if_pos (by omega)]
  · intro h1 h2
    unfold Bus.write
    rw [if_neg (by omega), if_neg (by omega), if_neg (by omega), if_neg (by omega),
      if_neg (by omega), if_neg (by omega), if_neg (by omega), if_pos ⟨h1, h2⟩]

/-- Witness for C8 at the concrete addresses 0x2000 (read Control),
0x2002 (write Status) and 0x8000 (write cartridge space). -/
theorem bus_register_access_fatal_check :
    busEx.read 0x2000 = none ∧ busEx.write 0x2002 0 = none ∧
    busEx.write 0x8000 0 = none :=
  ⟨(bus_register_access_fatal busEx 0x2000 0).1 (by norm_num) (by norm_num) (by decide),
   (bus_register_access_fatal busEx 0x2002 0).2.1 (by norm_num) (by norm_num) (by decide),
   (bus_register_access_fatal busEx 0x8000 0).2.2 (by norm_num) (by norm_num)⟩

/-- C9: pushing a byte and then popping returns the same byte and restores
the stack pointer; the byte travels through page `0x0100`, the 8-bit stack
pointer wraps modulo 256, and neither operation can fail. -/
theorem stack_push_pop_roundtrip (cpu : CPU) (v : Nat) (hs : cpu.s < 256) :
    ∃ c1, cpu.stack_push v = some c1 ∧
      c1.s = (cpu.s + 255) % 256 ∧
      c1.bus.cpu_ram (0x0100 + cpu.s) = v ∧
      ∃ c2, c1.stack_pop = some (v, c2) ∧ c2.s = cpu.s ∧ c2.a = cpu.a ∧
        c2.x = cpu.x ∧ c2.y = cpu.y ∧ c2.p = cpu.p ∧ c2.pc = cpu.pc := by
  have hor : 0x0100 ||| cpu.s = 0x0100 + cpu.s := by
    have h := or_split 8 1 0 0 cpu.s (by norm_num) (by simpa using hs)
    norm_num at h
    simpa using h
  have hmask : (0x0100 + cpu.s) &&& 0x7ff = 0x0100 + cpu.s := by
    rw [and_mask11]
    omega
  have hpush : cpu.stack_push v = some
      { cpu with
        bus := { cpu.bus with cpu_ram := updateFn cpu.bus.cpu_ram (0x0100 + cpu.s) v }
        s := (cpu.s + 255) % 256 } := by
    unfold CPU.stack_push
    rw [hor, write_ram cpu (0x0100 + cpu.s) v (by omega), hmask]
    rfl
  refine ⟨_, hpush, rfl, ?_, ?_⟩
  · simp [updateFn]
  · have hs2 : ((cpu.s + 255) % 256 + 1) % 256 = cpu.s := by omega
    refine ⟨{ cpu with
        bus := { cpu.bus with cpu_ram := updateFn cpu.bus.cpu_ram (0x0100 + cpu.s) v } },
      ?_, rfl, rfl, rfl, rfl, rfl, rfl⟩
    unfold CPU.stack_pop
    dsimp only
    rw [hs2, hor, read_ram _ _ (by omega), hmask]
    simp [updateFn]

/-- Witness for C9 at a concrete CPU (`s = 0xfd`) and byte `0xab`. -/
theorem stack_push_pop_roundtrip_check :
    ∃ c1, cpu9ex.stack_push 0xab = some c1 ∧ c1.s = 0xfc ∧
      c1.bus.cpu_ram 0x01fd = 0xab ∧
      ∃ c2, c1.stack_pop = some (0xab, c2) ∧ c2.s = 0xfd := by
  obtain ⟨c1, h1, h2, h3, c2, h4, h5, -, -, -, -, -⟩ :=
    stack_push_pop_roundtrip cpu9ex 0xab (by decide)
  exact ⟨c1, h1, h2, h3, c2, h4, h5⟩

/-- C4: in Indirect addressing mode, when the pointer's low byte is `0xff`
the effective address's high byte is fetched from the start of the pointer's
own page (`256 * hi`), not from the next page; when the low byte is not
`0xff` the high byte is fetched from `pointer + 1`. The hypotheses say the
involved reads are pure (they hit RAM-like locations), with `lo`/`hi` the
pointer bytes stored at `adr`/`adr+1`. -/
theorem indirect_page_boundary_bug (cpu : CPU) (adr lo hi : Nat)
    (h1 : cpu.read adr = some (lo, cpu))
    (h2 : cpu.read ((adr + 1) % 65536) = some (hi, cpu))
    (hlo : lo < 256) (hhi : hi < 256) :
    (lo = 0xff →
      ∀ l2 h2v, cpu.read (256 * hi + 255) = some (l2, cpu) →
        cpu.read (256 * hi) = some (h2v, cpu) → l2 < 256 →
        cpu.get_effective_address AddressingMode.Indirect adr =
          some (256 * h2v + l2, cpu)) ∧
    (lo ≠ 0xff →
      ∀ l2 h2v, cpu.read (256 * hi + lo) = some (l2, cpu) →
        cpu.read ((256 * hi + lo) + 1) = some (h2v, cpu) → l2 < 256 →
        cpu.get_effective_address AddressingMode.Indirect adr =
          some (256 * h2v + l2, cpu)) := by
  have hra : cpu.read_address adr = some (256 * hi + lo, cpu) := by
    unfold CPU.read_address
    rw [h1]
    simp only [Option.bind_eq_bind, Option.some_bind]
    rw [h2]
    simp only [Option.bind_eq_bind, Option.some_bind]
    rw [shiftLeft8_or hi lo hlo]
  constructor
  · intro hff l2 h2v hr1 hr2 hl2
    subst hff
    unfold CPU.get_effective_address
    rw [hra]
    simp only [Option.bind_eq_bind, Option.some_bind]
    rw [hr1]
    simp only [Option.bind_eq_bind, Option.some_bind]
    have hc : (256 * hi + 255) &&& 0xff = 0xff := by
      rw [and_mask8]
      omega
    rw [if_pos hc]
    have hp : (256 * hi + 255) &&& 0xff00 = 256 * hi := by
      rw [show (256 * hi + 255 : Nat) = 2 ^ 8 * hi + 255 by ring,
        show (0xff00 : Nat) = 2 ^ 8 * 0xff + 0 by norm_num,
        and_split 8 hi 0xff 255 0 (by norm_num) (by norm_num), Nat.and_zero]
      have he : hi &&& 0xff = hi := by
        rw [and_mask8]
        omega
      rw [he]
      ring
    rw [hp, hr2]
    simp only [Option.bind_eq_bind, Option.some_bind]
    rw [shiftLeft8_or h2v l2 hl2]
  · intro hne l2 h2v hr1 hr2 hl2
    unfold CPU.get_effective_address
    rw [hra]
    simp only [Option.bind_eq_bind, Option.some_bind]
    rw [hr1]
    simp only [Option.bind_eq_bind, Option.some_bind]
    have hc : ¬ ((256 * hi + lo) &&& 0xff = 0xff) := by
      rw [and_mask8]
      omega
    rw [if_neg hc]
    have hw : (256 * hi + lo + 1) % 65536 = 256 * hi + lo + 1 := by omega
    rw [hw, hr2]
    simp only [Option.bind_eq_bind, Option.some_bind]
    rw [shiftLeft8_or h2v l2 hl2]

/-- Witness for C4: the spec's example — pointer `0x01ff` stored at address
0, `0x34` at `0x01ff`, `0x12` at `0x0100`, `0x99` at `0x0200`; the effective
address is `0x1234`, not `0x9934`. -/
theorem indirect_page_boundary_bug_check :
    cpu4ex.get_effective_address AddressingMode.Indirect 0 = some (0x1234, cpu4ex) ∧
    cpu4ex.bus.cpu_ram 0x0200 = 0x99 := by
  have h := (indirect_page_boundary_bug cpu4ex 0 0xff 0x01 rfl rfl (by norm_num)
    (by norm_num)).1 rfl 0x34 0x12 rfl rfl (by norm_num)
  exact ⟨h, rfl⟩

/-- The method `update_flag` leaves the accumulator unchanged. -/
theorem update_flag_a (c : CPU) (f : Nat) (b : Bool) : (c.update_flag f b).a = c.a := by
  unfold CPU.update_flag
  split <;> rfl

/-- Reduction of `adc` in Immediate mode on a pure operand read. -/
theorem adc_reduce (cpu : CPU) (val res : Nat) (zB nB cB vB : Bool)
    (hread : cpu.read cpu.pc = some (val, cpu))
    (hres : res = ((cpu.a + val) % 256 + (cpu.p &&& 0x01)) % 256)
    (hz : zB = decide (res = 0))
    (hn : nB = decide (res &&& FLG_N ≠ 0))
    (hc : cB = (decide (256 ≤ cpu.a + val) ||
      decide (256 ≤ (cpu.a + val) % 256 + (cpu.p &&& 0x01))))
    (hv : vB = decide ((cpu.a ^^^ res) &&& (val ^^^ res) &&& FLG_N ≠ 0)) :
    cpu.adc AddressingMode.Immediate = some
      { (((cpu.update_flag FLG_Z zB).update_flag FLG_N nB).update_flag FLG_C
          cB).update_flag FLG_V vB with a := res } := by
  subst hres hz hn hc hv
  unfold CPU.adc CPU.get_operand_address CPU.get_effective_address CPU.update_zn_flags
  simp only [Option.bind_eq_bind, Option.some_bind]
  rw [hread]
  simp only [Option.bind_eq_bind, Option.some_bind, update_flag_a]

/-- Reduction of `sbc` in Immediate mode on a pure operand read: the same
addition applied to the bitwise complement of the operand. -/
theorem sbc_reduce (cpu : CPU) (val res : Nat) (zB nB cB vB : Bool)
    (hread : cpu.read cpu.pc = some (val, cpu))
    (hres : res = ((cpu.a + (0xff ^^^ val % 256)) % 256 + (cpu.p &&& 0x01)) % 256)
    (hz : zB = decide (res = 0))
    (hn : nB = decide (res &&& FLG_N ≠ 0))
    (hc : cB = (decide (256 ≤ cpu.a + (0xff ^^^ val % 256)) ||
      decide (256 ≤ (cpu.a + (0xff ^^^ val % 256)) % 256 + (cpu.p &&& 0x01))))
    (hv : vB = decide ((cpu.a ^^^ res) &&& ((0xff ^^^ val % 256) ^^^ res) &&& FLG_N ≠ 0)) :
    cpu.sbc AddressingMode.Immediate = some
      { (((cpu.update_flag FLG_Z zB).update_flag FLG_N nB).update_flag FLG_C
          cB).update_flag FLG_V vB with a := res } := by
  subst hres hz hn hc hv
  unfold CPU.sbc CPU.get_operand_address CPU.get_effective_address CPU.update_zn_flags
  simp only [Option.bind_eq_bind, Option.some_bind]
  rw [hread]
  simp only [Option.bind_eq_bind, Option.some_bind, update_flag_a]

/-- C7: `adc` computes its result via two chained 8-bit additions
(accumulator + operand, then + carry-in), sets Carry iff either addition
overflows, sets Overflow iff `(a ^ result) & (operand ^ result) & 0x80 != 0`,
and Zero/Negative from the result; `sbc` is the same addition against the
bitwise complement of the operand. Stated for an Immediate operand fetched
by a pure read at the program counter. -/
theorem adc_sbc_flags (cpu : CPU) (val : Nat)
    (hread : cpu.read cpu.pc = some (val, cpu)) (hval : val < 256) :
    (∃ c1, cpu.adc AddressingMode.Immediate = some c1 ∧
      c1.a = ((cpu.a + val) % 256 + (cpu.p &&& 0x01)) % 256 ∧
      c1.p.testBit 0 = (decide (256 ≤ cpu.a + val) ||
        decide (256 ≤ (cpu.a + val) % 256 + (cpu.p &&& 0x01))) ∧
      c1.p.testBit 6 = decide ((cpu.a ^^^ c1.a) &&& (val ^^^ c1.a) &&& 0x80 ≠ 0) ∧
      c1.p.testBit 1 = decide (c1.a = 0) ∧
      c1.p.testBit 7 = c1.a.testBit 7) ∧
    (∃ c2, cpu.sbc AddressingMode.Immediate = some c2 ∧
      c2.a = ((cpu.a + (0xff ^^^ val)) % 256 + (cpu.p &&& 0x01)) % 256 ∧
      c2.p.testBit 0 = (decide (256 ≤ cpu.a + (0xff ^^^ val)) ||
        decide (256 ≤ (cpu.a + (0xff ^^^ val)) % 256 + (cpu.p &&& 0x01))) ∧
      c2.p.testBit 6 =
        decide ((cpu.a ^^^ c2.a) &&& ((0xff ^^^ val) ^^^ c2.a) &&& 0x80 ≠ 0)) := by
  have hmod : val % 256 = val := Nat.mod_eq_of_lt hval
  constructor
  · have ha := adc_reduce cpu val _ _ _ _ _ hread rfl rfl rfl rfl rfl
    obtain ⟨hb0, hb1, hb6, hb7⟩ := flag_chain cpu
      (decide (((cpu.a + val) % 256 + (cpu.p &&& 0x01)) % 256 = 0))
      (decide ((((cpu.a + val) % 256 + (cpu.p &&& 0x01)) % 256) &&& FLG_N ≠ 0))
      (decide (256 ≤ cpu.a + val) ||
        decide (256 ≤ (cpu.a + val) % 256 + (cpu.p &&& 0x01)))
      (decide ((cpu.a ^^^ (((cpu.a + val) % 256 + (cpu.p &&& 0x01)) % 256)) &&&
        (val ^^^ (((cpu.a + val) % 256 + (cpu.p &&& 0x01)) % 256)) &&& FLG_N ≠ 0))
    refine ⟨_, ha, rfl, ?_, ?_, ?_, ?_⟩
    · exact hb0
    · exact hb6
    · exact hb1
    · exact hb7.trans (and_bit7_ne _)
  · have hs := sbc_reduce cpu val _ _ _ _ _ hread rfl rfl rfl rfl rfl
    rw [hmod] at hs
    obtain ⟨hb0, hb1, hb6, hb7⟩ := flag_chain cpu
      (decide (((cpu.a + (0xff ^^^ val)) % 256 + (cpu.p &&& 0x01)) % 256 = 0))
      (decide ((((cpu.a + (0xff ^^^ val)) % 256 + (cpu.p &&& 0x01)) % 256) &&& FLG_N ≠ 0))
      (decide (256 ≤ cpu.a + (0xff ^^^ val)) ||
        decide (256 ≤ (cpu.a + (0xff ^^^ val)) % 256 + (cpu.p &&& 0x01)))
      (decide ((cpu.a ^^^ (((cpu.a + (0xff ^^^ val)) % 256 + (cpu.p &&& 0x01)) % 256)) &&&
        ((0xff ^^^ val) ^^^ (((cpu.a + (0xff ^^^ val)) % 256 + (cpu.p &&& 0x01)) % 256)) &&&
        FLG_N ≠ 0))
    refine ⟨_, hs, rfl, ?_, ?_⟩
    · exact hb0
    · exact hb6

/-- Witness for C7: the spec's example `LDA #0x05; ADC #0x10` state — with
accumulator `0x05`, carry clear and immediate operand `0x10`, `adc` yields
accumulator `0x15` with carry and overflow clear. -/
theorem adc_sbc_flags_check :
    ∃ c1, cpu7ex.adc AddressingMode.Immediate = some c1 ∧ c1.a = 0x15 ∧
      c1.p.testBit 0 = false ∧ c1.p.testBit 6 = false := by
  obtain ⟨⟨c1, h1, h2, h3, h4, -, -⟩, -⟩ := adc_sbc_flags cpu7ex 0x10 rfl (by norm_num)
  rw [h2] at h4
  exact ⟨c1, h1, h2, h3, h4⟩

/-- C1 (amended): writing the PPU Data register with the Address pointer in
the VRAM range stores the byte at the mirrored VRAM cell, but — unlike
`read_data`, which does auto-increment the Address pointer by Control's step —
`write_data` leaves the Address pointer unchanged. -/
theorem ppu_write_data_stores_no_increment (p : PPU) (data : Nat)
    (h1 : 0x2000 ≤ p.register_address.address)
    (h2 : p.register_address.address ≤ 0x2fff)
    (hm : p.mirroring = Mirroring.Horizontal ∨ p.mirroring = Mirroring.Vertical) :
    (∃ t, p.vram_mirror_adr p.register_address.address = some t ∧ t ≤ 0x7ff ∧
      p.write_data data = some { p with vram := updateFn p.vram t data }) ∧
    ((p.write_data data).map (fun q => q.register_address.address) =
      some p.register_address.address) ∧
    (∀ v q, p.read_data = some (v, q) →
      q.register_address.address =
        ((p.register_address.address + p.register_control.get_address_increment) % 65536)
          &&& 0x3fff) := by
  have hid := and_2fff_id _ h1 h2
  obtain ⟨t, hmt, htle⟩ :
      ∃ t, p.vram_mirror_adr p.register_address.address = some t ∧ t ≤ 0x7ff := by
    unfold PPU.vram_mirror_adr
    have hb := Nat.and_le_right (n := p.register_address.address) (m := 0x3ff)
    rcases hm with hm | hm <;> rw [hm] <;> dsimp only <;> rw [hid]
    · by_cases hc : 0x2000 ≤ p.register_address.address ∧
        p.register_address.address ≤ 0x27ff
      · rw [if_pos hc]
        exact ⟨_, rfl, by omega⟩
      · rw [if_neg hc, if_pos (by omega)]
        exact ⟨_, rfl, by omega⟩
    · by_cases hc : (0x2000 ≤ p.register_address.address ∧
        p.register_address.address ≤ 0x23ff) ∨
        (0x2800 ≤ p.register_address.address ∧ p.register_address.address ≤ 0x2bff)
      · rw [if_pos hc]
        exact ⟨_, rfl, by omega⟩
      · rw [if_neg hc, if_pos (by omega)]
        exact ⟨_, rfl, by omega⟩
  refine ⟨⟨t, hmt, htle, ?_⟩, ?_, ?_⟩
  · unfold PPU.write_data
    rw [if_neg (by omega), if_pos (by omega), hmt]
    rfl
  · unfold PPU.write_data
    rw [if_neg (by omega), if_pos (by omega), hmt]
    rfl
  · intro v q hq
    unfold PPU.read_data at hq
    dsimp only at hq
    rw [if_neg (by omega), if_pos (by omega)] at hq
    rcases hx : (p.increment_adr).vram_mirror_adr p.register_address.address with - | t2
    · rw [hx] at hq
      simp at hq
    · rw [hx] at hq
      simp only [Option.map_some'] at hq
      injection hq with hq1
      injection hq1 with hv hqq
      rw [← hqq]
      rfl

/-- Counterexample for C1 as stated: with the Address pointer at `0x2305` and
Control's step equal to 1, `write_data` stores the byte but leaves the
pointer at `0x2305` — it does not advance to `0x2306`. -/
theorem ppu_write_data_increment_refuted :
    ppu1ex.register_address.address = 0x2305 ∧
    ppu1ex.register_control.get_address_increment = 1 ∧
    (ppu1ex.write_data 0x66).map (fun q => q.register_address.address) = some 0x2305 ∧
    (ppu1ex.write_data 0x66).map (fun q => q.register_address.address) ≠ some 0x2306 := by
  refine ⟨rfl, rfl, ?_, ?_⟩ <;> decide

/-- Witness for C1's amended theorem at the concrete PPU with Address
pointer `0x2305`. -/
theorem ppu_write_data_stores_no_increment_check :
    ∃ t, ppu1ex.vram_mirror_adr ppu1ex.register_address.address = some t ∧ t ≤ 0x7ff ∧
      ppu1ex.write_data 0x66 = some { ppu1ex with vram := updateFn ppu1ex.vram t 0x66 } :=
  (ppu_write_data_stores_no_increment ppu1ex 0x66 (by decide) (by decide) (Or.inl rfl)).1

/-- Characterization of one run-loop iteration when no NMI is pending, the
opcode fetch is a pure read, and the instruction executes without panic. -/
theorem runStep_eq (cpu cpu2 : CPU) (t code : Nat) (op : OpCode)
    (hnmi : cpu.bus.ppu.nmi = false)
    (hread : cpu.read cpu.pc = some (code, cpu))
    (hop : opcodes_map code = some op)
    (hex : executeInstr code op.mode { cpu with pc := (cpu.pc + 1) % 65536 } = some cpu2) :
    runStep ⟨cpu, t⟩ = some
      ⟨if (cpu.pc + 1) % 65536 = cpu2.pc then
          { cpu2 with
              bus := cpu2.bus.tick op.cycles
              pc := (cpu2.pc + (op.len - 1)) % 65536 }
        else { cpu2 with bus := cpu2.bus.tick op.cycles },
      (t + (2 ^ 64 - op.len)) % 2 ^ 64⟩ := by
  unfold runStep Bus.get_nmi PPU.get_nmi
  dsimp only
  rw [hnmi]
  rw [if_neg Bool.false_ne_true]
  have hpe : ({ cpu.bus.ppu with nmi := false } : PPU) = cpu.bus.ppu := by
    rw [← hnmi]
  rw [hpe,
    show ({ cpu.bus with ppu := cpu.bus.ppu } : Bus) = cpu.bus from rfl,
    show ({ cpu with bus := cpu.bus } : CPU) = cpu from rfl]
  simp only [Option.bind_eq_bind, Option.some_bind]
  rw [hread]
  simp only [Option.bind_eq_bind, Option.some_bind]
  dsimp only
  rw [hop]
  simp only [Option.bind_eq_bind, Option.some_bind]
  rw [hex]
  simp only [Option.bind_eq_bind, Option.some_bind]

/-- One iteration of the run loop on the `BNE -2` machine: the branch jumps
back to itself, the PPU clock advances by 6, and the budget is decremented
(`wrapping_sub`) by the instruction length 2. -/
theorem bne_step (c t : Nat) :
    runStep ⟨bneCpu c, t⟩ =
      some ⟨bneCpu (c + 6), (t + (2 ^ 64 - 2)) % 2 ^ 64⟩ := by
  have hread : (bneCpu c).read (bneCpu c).pc = some (0xd0, bneCpu c) := by
    show (bneCpu c).read 0 = some (0xd0, bneCpu c)
    rfl
  have hp : ({ bneCpu c with pc := (0 + 1) % 65536 } : CPU).p &&& FLG_Z = 0 := by
    show (0x24 : Nat) &&& FLG_Z = 0
    rfl
  have hread2 : ({ bneCpu c with pc := (0 + 1) % 65536 } : CPU).read ((0 + 1) % 65536) =
      some (0xfe, { bneCpu c with pc := (0 + 1) % 65536 }) := by
    rw [read_ram _ _ (by norm_num),
      show ((0 + 1) % 65536 &&& 0x7ff : Nat) = 1 from by decide]
    rfl
  have hbne : CPU.bne { bneCpu c with pc := (0 + 1) % 65536 } = some (bneCpu c) := by
    unfold CPU.bne
    rw [if_pos hp, hread2]
    rfl
  have hex : executeInstr 0xd0 AddressingMode.Implied
      { bneCpu c with pc := ((bneCpu c).pc + 1) % 65536 } = some (bneCpu c) := by
    show CPU.bne { bneCpu c with pc := (0 + 1) % 65536 } = some (bneCpu c)
    exact hbne
  have h := runStep_eq (bneCpu c) (bneCpu c) t 0xd0
    ⟨AddressingMode.Implied, 2, 2⟩ rfl hread rfl hex
  rw [h, if_neg (show ¬ (((bneCpu c).pc + 1) % 65536 = (bneCpu c).pc) from by
    show ¬ ((0 + 1) % 65536 = 0)
    norm_num)]
  have ht : (bneCpu c).bus.tick 2 = (bneCpu (c + 6)).bus := by
    unfold Bus.tick PPU.tick
    rw [if_neg (show ¬ ((bneCpu c).bus.ppu.register_control.flags &&& 0x80 ≠ 0) from by
      show ¬ ((0 : Nat) &&& 0x80 ≠ 0)
      decide)]
    rfl
  rw [ht]
  rfl

/-- Along the `BNE -2` loop the machine returns to the same state (up to the
PPU clock) and the budget stays odd forever, because 2 is subtracted from an
odd value modulo the even modulus `2^64`. -/
theorem bne_trace (n : Nat) : ∀ c t, t % 2 = 1 →
    ∃ c2 t2, runTrace true n ⟨bneCpu c, t⟩ = some ⟨bneCpu c2, t2⟩ ∧ t2 % 2 = 1 := by
  induction n with
  | zero => exact fun c t ht => ⟨c, t, rfl, ht⟩
  | succ n ih =>
      intro c t ht
      have hg : runGuard true ⟨bneCpu c, t⟩ = true := by
        unfold runGuard
        simp only [Bool.not_true, Bool.false_or, decide_eq_true_eq]
        omega
      simp only [runTrace]
      rw [hg]
      simp only [if_true, bne_step, Option.some_bind]
      exact ih (c + 6) _ (by omega)

/-- C3 counterexample: as stated the claim is false — the `BNE -2` loop with
the odd budget 1 never returns: the budget is decremented by the instruction
length 2 with `wrapping_sub` and the loop only exits when it lands exactly
on zero, which an odd budget never does. -/
theorem run_budget_skipped_nontermination : ¬ RunReturns true bneStart := by
  rintro ⟨n, hn⟩
  obtain ⟨c2, t2, htr, ht2⟩ := bne_trace n 0 1 rfl
  unfold runStopped at hn
  rw [show (bneStart : RunState) = ⟨bneCpu 0, 1⟩ from rfl, htr] at hn
  simp [runGuard] at hn
  omega

/-- One iteration of the run loop on the all-`NOP` machine advances the
program counter by one and decrements the budget by the instruction
length 1. -/
theorem nop_step (pc0 c t : Nat) (h : pc0 < 0x1fff) :
    runStep ⟨nopCpu pc0 c, t⟩ =
      some ⟨nopCpu (pc0 + 1) (c + 6), (t + (2 ^ 64 - 1)) % 2 ^ 64⟩ := by
  have hread : (nopCpu pc0 c).read (nopCpu pc0 c).pc = some (0xea, nopCpu pc0 c) := by
    show (nopCpu pc0 c).read pc0 = some (0xea, nopCpu pc0 c)
    rw [read_ram _ _ (by omega)]
    rfl
  have hex : executeInstr 0xea AddressingMode.Implied
      { nopCpu pc0 c with pc := ((nopCpu pc0 c).pc + 1) % 65536 } =
      some { nopCpu pc0 c with pc := (pc0 + 1) % 65536 } := rfl
  have h2 := runStep_eq (nopCpu pc0 c) { nopCpu pc0 c with pc := (pc0 + 1) % 65536 } t 0xea
    ⟨AddressingMode.Implied, 1, 2⟩ rfl hread rfl hex
  rw [h2, if_pos (show ((nopCpu pc0 c).pc + 1) % 65536 =
    ({ nopCpu pc0 c with pc := (pc0 + 1) % 65536 } : CPU).pc from rfl)]
  have ht : ({ nopCpu pc0 c with pc := (pc0 + 1) % 65536 } : CPU).bus.tick 2 =
      (nopCpu (pc0 + 1) (c + 6)).bus := by
    unfold Bus.tick PPU.tick
    rw [if_neg (show ¬ (({ nopCpu pc0 c with pc := (pc0 + 1) % 65536 } :
        CPU).bus.ppu.register_control.flags &&& 0x80 ≠ 0) from by
      show ¬ ((0 : Nat) &&& 0x80 ≠ 0)
      decide)]
    rfl
  rw [ht]
  have hpc : (({ nopCpu pc0 c with pc := (pc0 + 1) % 65536 } : CPU).pc +
      (({ mode := AddressingMode.Implied, len := 1, cycles := 2 } : OpCode).len - 1)) % 65536 =
      pc0 + 1 := by
    show ((pc0 + 1) % 65536 + (1 - 1)) % 65536 = pc0 + 1
    omega
  rw [hpc]
  rfl

/-- The all-`NOP` machine with budget `n` exits the run loop after exactly
`n` iterations, when the budget lands on zero. -/
theorem nop_halts (n : Nat) : ∀ pc0 c, pc0 + n ≤ 0x1fff →
    runStopped true (n + 1) ⟨nopCpu pc0 c, n⟩ = true := by
  induction n with
  | zero => intro pc0 c h; rfl
  | succ n ih =>
      intro pc0 c h
      have hg : runGuard true ⟨nopCpu pc0 c, n + 1⟩ = true := by
        unfold runGuard
        simp
      have hrt : ((n + 1) + (2 ^ 64 - 1)) % 2 ^ 64 = n := by omega
      unfold runStopped
      simp only [runTrace]
      rw [hg]
      simp only [if_true]
      rw [nop_step pc0 c (n + 1) (by omega), hrt]
      simp only [Option.some_bind]
      show runStopped true (n + 1) ⟨nopCpu (pc0 + 1) (c + 6), n⟩ = true
      exact ih (pc0 + 1) (c + 6) (by omega)

/-- C3 (amended): with a cycle budget requested, `run` terminates when the
budget — decremented by each opcode's byte length with `wrapping_sub` — lands
exactly on zero: in particular an all-`NOP` program with budget `b` returns
after exactly `b` instructions. With no budget requested the loop guard never
fails. (A budget the decrements skip over never terminates the loop, as the
counterexample shows.) -/
theorem run_budget_exact_termination :
    (∀ b : Nat, b ≤ 0x1fff → RunReturns true (nopStart b)) ∧
    (∀ s : RunState, runGuard false s = true) := by
  constructor
  · intro b hb
    exact ⟨b + 1, nop_halts b 0 0 (by omega)⟩
  · intro s
    rfl

/-- Witness for C3's amended theorem: the all-`NOP` machine with budget 5
returns. -/
theorem run_budget_exact_termination_check : RunReturns true (nopStart 5) :=
  run_budget_exact_termination.1 5 (by norm_num)

end Nes
